import Mathlib

/-!
Verification development for the emotional-support chat bot (`bot.py`).

Text is modelled as `List Char`.  The Python helpers used by the bot are
embedded as executable Lean functions:

* `pyLower`    — `str.lower()` (per-character lowering)
* `pyStrip`    — `str.strip()` (drop leading/trailing whitespace)
* `pyIsdigit`  — `str.isdigit()` (nonempty and all digits)
* `containsSub` — Python's substring test `needle in hay`
* `wordsOf` / `joinSp` — `str.split()` and `' '.join(...)`
* `stripTags`  — `re.sub(r'<[^>]+>', '', s)` (leftmost, non-overlapping)
-/

def pyIsSpace (c : Char) : Bool :=
  c == ' ' || c == '\t' || c == '\n' || c == '\r' || c == '\x0b' || c == '\x0c'

def pyLower (l : List Char) : List Char := l.map Char.toLower

def pyStrip (l : List Char) : List Char :=
  ((l.dropWhile pyIsSpace).reverse.dropWhile pyIsSpace).reverse

def pyIsdigit (l : List Char) : Bool := !l.isEmpty && l.all Char.isDigit

/-- Decimal digits to a natural number, as Python's `int(...)` on a digit string. -/
def parseDigits (l : List Char) : Nat := l.foldl (fun a c => a * 10 + (c.toNat - 48)) 0

/-- `strStarts needle hay` : `needle` is an initial segment of `hay`. -/
def strStarts : List Char → List Char → Bool
  | [], _ => true
  | _ :: _, [] => false
  | a :: as, b :: bs => a == b && strStarts as bs

/-- Python's substring containment `needle in hay`. -/
def containsSub (needle : List Char) : List Char → Bool
  | [] => needle.isEmpty
  | c :: rest => strStarts needle (c :: rest) || containsSub needle rest

/-- `str.split()` worker: `acc` holds the current word, reversed. -/
def wordsAux : List Char → List Char → List (List Char)
  | [], acc => if acc.isEmpty then [] else [acc.reverse]
  | c :: rest, acc =>
    if pyIsSpace c then
      if acc.isEmpty then wordsAux rest [] else acc.reverse :: wordsAux rest []
    else wordsAux rest (c :: acc)

/-- Python `str.split()` : whitespace-separated words, empties dropped. -/
def wordsOf (l : List Char) : List (List Char) := wordsAux l []

/-- `' '.join(ws)` : words joined by single spaces. -/
def joinSp : List (List Char) → List Char
  | [] => []
  | [w] => w
  | w :: ws => w ++ ' ' :: joinSp ws

/-- `re.sub(r'<[^>]+>', '', s)`, as a single left-to-right scan.
`buf = some chars` means we are after an unresolved `<`; `chars` (reversed) is
the run of non-`>` characters read so far.  A `>` arriving on a nonempty run
closes the tag (the whole `<...>` is dropped); a `>` arriving immediately after
`<` means the regex cannot match there (`[^>]+` needs one character), so both
characters are kept; running out of input with an open `<` keeps everything
literally (no `>` ever arrives, so no match was possible). -/
def stripAux : List Char → Option (List Char) → List Char
  | [], none => []
  | [], some buf => '<' :: buf.reverse
  | c :: rest, none =>
    if c == '<' then stripAux rest (some []) else c :: stripAux rest none
  | c :: rest, some buf =>
    if c == '>' then
      if buf.isEmpty then '<' :: '>' :: stripAux rest none
      else stripAux rest none
    else stripAux rest (some (c :: buf))

def stripTags (l : List Char) : List Char := stripAux l none

/-- `' '.join(clean_text.split())` applied after tag stripping —
the normalization done by `fetch_bible_verse` on a passage payload. -/
def clean_verse_text (l : List Char) : List Char := joinSp (wordsOf (stripTags l))

/-- The module-level `bible_references` dictionary. -/
def bible_references : List (List Char × List (List Char)) := [
  ("sad".data, ["Psalm 34:18".data, "Matthew 11:28".data, "Matthew 5:4".data, "Psalm 147:3".data]),
  ("anxious".data, ["Philippians 4:6-7".data, "1 Peter 5:7".data, "Matthew 6:25-34".data]),
  ("lonely".data, ["Hebrews 13:5".data, "Psalm 68:6".data, "Deuteronomy 31:6".data]),
  ("angry".data, ["Ephesians 4:26".data, "Proverbs 15:1".data, "James 1:19-20".data]),
  ("scared".data, ["2 Timothy 1:7".data, "Isaiah 41:10".data, "Psalm 56:3".data]),
  ("discouraged".data, ["Isaiah 41:10".data, "Joshua 1:9".data, "Galatians 6:9".data]),
  ("overwhelmed".data, ["Matthew 11:28-30".data, "Psalm 61:2".data, "2 Corinthians 12:9".data]),
  ("guilty".data, ["1 John 1:9".data, "Psalm 103:12".data, "Romans 8:1".data]),
  ("insecure".data, ["Psalm 139:14".data, "Ephesians 2:10".data, "Jeremiah 1:5".data]),
  ("grieving".data, ["Revelation 21:4".data, "Psalm 34:18".data, "Mathew 5:4".data]),
  ("hopeless".data, ["Romans 15:13".data, "Jeremiah 29:11".data, "Psalm 42:11".data]),
  ("tempted".data, ["1 Corinthians 10:13".data, "James 4:7".data, "Hebrews 2:18".data]),
  ("thankful".data, ["1 Thessalonians 5:18".data, "Psalm 107:1".data, "Colossians 3:15".data]),
  ("weary".data, ["Matthew 11:28".data, "Galatians 6:9".data, "Isaiah 40:31".data]),
  ("doubtful".data, ["Mark 9:24".data, "James 1:6".data, "Matthew 21:21".data])]

/-- The membership test `text in [e.lower() for e in bible_references.keys()]`
from `handle_emotion_choice` / `handle_message` (the bot's emotion lookup),
returned as the matched key so the caller can use it. -/
def emotion_lookup (text : List Char) : Option (List Char) :=
  (bible_references.map (fun kv => pyLower kv.1)).find? (fun k => pyLower text == k)

/-- The outcome of the single `requests.get` call inside `fetch_bible_verse`:
a transport-level exception (connection error or timeout), a response whose
body fails to parse as JSON (`response.json()` raises), or a parsed response
carrying its status code and, when present, the content string of
`data['data']['passages'][0]` (`none` when `data.get('data', \x7b\x7d).get('passages')`
is missing or empty). -/
inductive UpstreamOutcome
  | transportError
  | malformedBody (code : Nat)
  | response (code : Nat) (passages : Option (List Char))

/-- `fetch_bible_verse` on the outcome of its one HTTP request.
`response.raise_for_status()` raises `HTTPError` exactly for status codes in
`[400, 600)`; every exception is caught by the surrounding `try`/`except`
and turns into `None`.  On a parsed body with a passage, the HTML content is
tag-stripped and whitespace-normalized. -/
def fetch_bible_verse : UpstreamOutcome → Option (List Char)
  | .transportError => none
  | .malformedBody _ => none
  | .response code passages =>
    if 400 ≤ code ∧ code < 600 then none
    else
      match passages with
      | some html => some (clean_verse_text html)
      | none => none

/-- `fetch_bible_verse` together with the number of HTTP requests its body
performs.  The body is straight-line: exactly one `requests.get` (attempt
index 0).  The `tenacity` import (`retry`, `stop_after_attempt`,
`wait_exponential`) is never applied as a decorator, so no retry loop exists. -/
def fetch_bible_verse_run (upstream : Nat → UpstreamOutcome) : Option (List Char) × Nat :=
  (fetch_bible_verse (upstream 0), 1)

/-- The fixed fallback `(verse, explanation)` returned by `get_bible_verse`
when the emotion is unknown or the API fetch yields nothing. -/
def fallback_pair : List Char × List Char :=
  ("John 16:33 - In this world you will have trouble. But take heart! I have overcome the world.".data,
   "This verse reminds us that Jesus has overcome the world\x27s challenges.".data)

/-- The f-string explanation attached to a successfully fetched verse. -/
def explanation_for (emotion : List Char) : List Char :=
  "This verse reminds us that ".data ++ emotion ++ " is natural, but God is with us.".data

/-- `get_bible_verse(emotion)`.  `random.choice` is modelled by an index
`choice` reduced modulo the candidate list's length; the fetch is the
dependency `fetch` applied to the chosen reference. -/
def get_bible_verse (emotion : List Char) (choice : Nat)
    (fetch : List Char → Option (List Char)) : List Char × List Char :=
  match bible_references.find? (fun kv => kv.1 == emotion) with
  | some kv =>
    match fetch (kv.2.getD (choice % kv.2.length) []) with
    | some verseText => (verseText, explanation_for emotion)
    | none => fallback_pair
  | none => fallback_pair

/-- Conversation stages of the `ConversationHandler`:
`WAITING_FOR_EMOTION = 1`, `GENERAL_CONVERSATION = 2`, and
`ConversationHandler.END` (the conversation is over). -/
inductive Stage
  | waiting_for_emotion
  | general_conversation
  | ended
deriving DecidableEq

def msg_how_feeling : List Char := "How are you feeling?".data

def msg_listening : List Char :=
  "I\x27m here to listen. What would you like to talk about?".data

def msg_talk_more : List Char := "Would you like to talk more about this?".data

def msg_reprompt : List Char :=
  "Please choose \x27I need a verse\x27 or \x27I want to talk\x27".data

def msg_choice_error : List Char :=
  "Sorry, I didn\x27t understand. Please try /start again.".data

/-- `handle_emotion_choice`, the `WAITING_FOR_EMOTION` handler.  Returns the
list of messages sent this turn and the handler's return value (next stage).
`exc` models an exception raised anywhere in the `try` body: the bare
`except` replies with an apology and returns `ConversationHandler.END`.
The source keeps no per-conversation scratch state (no failure counter), so
consecutive turns are independent applications of this function. -/
def handle_emotion_choice (exc : Bool) (choice : Nat)
    (fetch : List Char → Option (List Char)) (text : List Char) :
    List (List Char) × Stage :=
  if exc then ([msg_choice_error], Stage.ended)
  else
    let t := pyLower text
    if containsSub "verse".data t || containsSub "3874".data t then
      ([msg_how_feeling], Stage.waiting_for_emotion)
    else if containsSub "talk".data t then
      ([msg_listening], Stage.general_conversation)
    else
      match emotion_lookup text with
      | some e =>
        let p := get_bible_verse e choice fetch
        ([p.1 ++ "\n\n".data ++ p.2, msg_talk_more], Stage.general_conversation)
      | none => ([msg_reprompt], Stage.waiting_for_emotion)

/-- World state for the lock-file functions: the lock file's contents (if it
exists), which process ids are alive, and which have been sent SIGTERM. -/
structure ProcState where
  lock : Option (List Char)
  alive : List Nat
  killed : List Nat

/-- `enforce_single_instance()` for process `current`.  If the lock file
records a digit string naming a distinct, alive pid, that process is sent
SIGTERM (`os.kill(existing_pid, 15)`) and the lock file removed; in every
non-exception path the caller's own pid is then written and `True` returned.
`ioFail` models an exception escaping to the outer `except`, which logs and
returns `False`. -/
def enforce_single_instance (ioFail : Bool) (st : ProcState) (current : Nat) :
    Bool × ProcState :=
  if ioFail then (false, st)
  else
    let st1 :=
      match st.lock with
      | none => st
      | some contents =>
        let pidStr := pyStrip contents
        if pyIsdigit pidStr then
          if parseDigits pidStr ≠ current ∧ parseDigits pidStr ∈ st.alive then
            { st with lock := none, killed := parseDigits pidStr :: st.killed }
          else st
        else st
    (true, { st1 with lock := some (Nat.repr current).data })

/-- `cleanup_lock()` for process `pid`: remove the lock file only when its
stripped contents equal `str(os.getpid())`.  `removeFails` models an
`os.remove` failure; the surrounding `try`/`except` logs it and returns
normally, leaving the file in place. -/
def cleanup_lock (removeFails : Bool) (fs : Option (List Char)) (pid : Nat) :
    Option (List Char) :=
  match fs with
  | none => none
  | some contents =>
    if pyStrip contents = (Nat.repr pid).data then
      if removeFails then some contents else none
    else some contents

/-- A position where the regex `<[^>]+>` can match: a `<` followed by a
nonempty run of non-`>` characters and then a `>`. -/
def isTagStart (rest : List Char) : Bool :=
  !(rest.takeWhile (fun c => c != '>')).isEmpty &&
    !(rest.dropWhile (fun c => c != '>')).isEmpty

/-- `hasTag l` : some position of `l` matches the regex `<[^>]+>`. -/
def hasTag : List Char → Bool
  | [] => false
  | c :: rest => (c == '<' && isTagStart rest) || hasTag rest

/-- Two adjacent whitespace characters occur somewhere in the list. -/
def hasAdjSpace : List Char → Bool
  | a :: b :: rest => (pyIsSpace a && pyIsSpace b) || hasAdjSpace (b :: rest)
  | _ => false

/-- An upstream outcome on which no verse can be produced: transport error or
timeout, malformed body, error status in `[400, 600)`, or missing passages. -/
def failed_outcome : UpstreamOutcome → Bool
  | .transportError => true
  | .malformedBody _ => true
  | .response code passages => decide (400 ≤ code ∧ code < 600) || passages.isNone

theorem dropWhile_ne_gt_nil (l : List Char) (h : '>' ∉ l) :
    l.dropWhile (fun c => c != '>') = [] := by
  rw [List.dropWhile_eq_nil_iff]
  intro x hx
  rw [bne_iff_ne]
  rintro rfl
  exact h hx

theorem hasTag_eq_false_of_no_gt : ∀ l : List Char, '>' ∉ l → hasTag l = false
  | [], _ => rfl
  | c :: rest, h => by
    have h1 : '>' ∉ rest := fun hm => h (List.mem_cons_of_mem _ hm)
    simp [hasTag, isTagStart, dropWhile_ne_gt_nil rest h1,
      hasTag_eq_false_of_no_gt rest h1]

theorem hasTag_stripAux : ∀ (l : List Char) (b : Option (List Char)),
    (∀ buf, b = some buf → '>' ∉ buf) → hasTag (stripAux l b) = false := by
  intro l
  induction l with
  | nil =>
    intro b hb
    cases b with
    | none => rfl
    | some buf =>
      apply hasTag_eq_false_of_no_gt
      intro hmem
      rcases List.mem_cons.mp hmem with h | h
      · exact absurd h (by decide)
      · exact hb buf rfl (List.mem_reverse.mp h)
  | cons c rest ih =>
    intro b hb
    cases b with
    | none =>
      by_cases hc : c == '<'
      · simp only [stripAux, hc, if_pos]
        exact ih (some []) (fun buf hbuf => by cases hbuf; simp)
      · simp only [stripAux, hc, Bool.false_eq_true, if_neg, not_false_eq_true]
        simp [hasTag, hc, ih none (fun buf hbuf => nomatch hbuf)]
    | some buf =>
      by_cases hc : c == '>'
      · by_cases hbe : buf.isEmpty
        · simp only [stripAux, hc, hbe, if_pos]
          simp [hasTag, isTagStart, List.takeWhile, ih none (fun buf hbuf => nomatch hbuf)]
        · simp only [stripAux, hc, hbe, if_pos, Bool.false_eq_true, if_neg, not_false_eq_true]
          exact ih none (fun buf hbuf => nomatch hbuf)
      · simp only [stripAux, hc, Bool.false_eq_true, if_neg, not_false_eq_true]
        refine ih (some (c :: buf)) ?_
        intro buf' hbuf' hmem
        cases hbuf'
        rcases List.mem_cons.mp hmem with h | h
        · rw [← h] at hc
          simp at hc
        · exact hb buf rfl h

theorem wordsAux_words : ∀ (l acc : List Char),
    (∀ c ∈ acc, pyIsSpace c = false) →
    ∀ w ∈ wordsAux l acc, w ≠ [] ∧ ∀ c ∈ w, pyIsSpace c = false := by
  intro l
  induction l with
  | nil =>
    intro acc hacc w hw
    by_cases he : acc.isEmpty
    · simp [wordsAux, he] at hw
    · simp only [wordsAux, he, Bool.false_eq_true, if_neg, not_false_eq_true,
        List.mem_singleton] at hw
      subst hw
      constructor
      · simp [List.reverse_eq_nil_iff]
        exact fun h => by simp [h] at he
      · intro c hc
        exact hacc c (List.mem_reverse.mp hc)
  | cons c rest ih =>
    intro acc hacc w hw
    by_cases hs : pyIsSpace c
    · by_cases he : acc.isEmpty
      · simp only [wordsAux, hs, he, if_pos] at hw
        exact ih [] (by simp) w hw
      · simp only [wordsAux, hs, he, Bool.false_eq_true, if_neg, not_false_eq_true,
          if_pos, List.mem_cons] at hw
        rcases hw with rfl | hw
        · constructor
          · simp [List.reverse_eq_nil_iff]
            exact fun h => by simp [h] at he
          · intro x hx
            exact hacc x (List.mem_reverse.mp hx)
        · exact ih [] (by simp) w hw
    · simp only [wordsAux, hs, Bool.false_eq_true, if_neg, not_false_eq_true] at hw
      refine ih (c :: acc) ?_ w hw
      intro x hx
      rcases List.mem_cons.mp hx with rfl | hx
      · simpa using hs
      · exact hacc x hx

theorem hasAdjSpace_append : ∀ (w r : List Char),
    (∀ c ∈ w, pyIsSpace c = false) →
    hasAdjSpace (w ++ r) = hasAdjSpace r := by
  intro w
  induction w with
  | nil => intro r _; rfl
  | cons a w' ih =>
    intro r hw
    have ha : pyIsSpace a = false := hw a (List.mem_cons_self a w')
    have hw' : ∀ c ∈ w', pyIsSpace c = false :=
      fun c hc => hw c (List.mem_cons_of_mem a hc)
    cases w' with
    | nil =>
      cases r with
      | nil => rfl
      | cons b r' => simp [hasAdjSpace, ha]
    | cons b w'' =>
      have := ih r hw'
      simp only [List.cons_append] at this ⊢
      simp [hasAdjSpace, ha, this]

theorem hasAdjSpace_joinSp : ∀ ws : List (List Char),
    (∀ w ∈ ws, w ≠ [] ∧ ∀ c ∈ w, pyIsSpace c = false) →
    hasAdjSpace (joinSp ws) = false := by
  intro ws
  induction ws with
  | nil => intro _; rfl
  | cons w ws ih =>
    intro h
    have hw := h w (List.mem_cons_self w ws)
    cases ws with
    | nil =>
      show hasAdjSpace (joinSp [w]) = false
      have : joinSp [w] = w := rfl
      rw [this, ← List.append_nil w, hasAdjSpace_append w [] hw.2]
      rfl
    | cons w' ws' =>
      have htail : ∀ x ∈ w' :: ws', x ≠ [] ∧ ∀ c ∈ x, pyIsSpace c = false :=
        fun x hx => h x (List.mem_cons_of_mem w hx)
      have hihs := ih htail
      have hw' := htail w' (List.mem_cons_self w' ws')
      show hasAdjSpace (w ++ ' ' :: joinSp (w' :: ws')) = false
      rw [hasAdjSpace_append w (' ' :: joinSp (w' :: ws')) hw.2]
      obtain ⟨x, w'', rfl⟩ : ∃ x w'', w' = x :: w'' := by
        cases w' with
        | nil => exact absurd rfl hw'.1
        | cons x w'' => exact ⟨x, w'', rfl⟩
      have hx : pyIsSpace x = false := hw'.2 x (List.mem_cons_self x w'')
      obtain ⟨t, ht⟩ : ∃ t, joinSp ((x :: w'') :: ws') = x :: t := by
        cases ws' with
        | nil => exact ⟨w'', rfl⟩
        | cons z zs => exact ⟨w'' ++ ' ' :: joinSp (z :: zs), rfl⟩
      rw [ht]
      rw [ht] at hihs
      simp [hasAdjSpace, hx]
      simpa [hasAdjSpace] using hihs

theorem mem_joinSp : ∀ (ws : List (List Char)) (c : Char),
    c ∈ joinSp ws → c = ' ' ∨ ∃ w ∈ ws, c ∈ w := by
  intro ws
  induction ws with
  | nil => intro c hc; cases hc
  | cons w ws ih =>
    intro c hc
    cases ws with
    | nil =>
      right
      exact ⟨w, List.mem_cons_self w [], hc⟩
    | cons w' ws' =>
      have : c ∈ w ++ ' ' :: joinSp (w' :: ws') := hc
      rcases List.mem_append.mp this with h | h
      · exact Or.inr ⟨w, List.mem_cons_self w _, h⟩
      · rcases List.mem_cons.mp h with rfl | h
        · exact Or.inl rfl
        · rcases ih c h with h' | ⟨x, hx, hcx⟩
          · exact Or.inl h'
          · exact Or.inr ⟨x, List.mem_cons_of_mem w hx, hcx⟩

/-- C1 (amended): the emotion lookup done on a `WAITING_FOR_EMOTION` message
succeeds exactly when the lowercased message is, in its entirety, equal to a
catalog keyword; it does not trim and does not match keywords occurring as
proper substrings. -/
theorem emotion_lookup_exact : ∀ (text e : List Char),
    emotion_lookup text = some e ↔ e ∈ bible_references.map Prod.fst ∧ pyLower text = e := by
  have hk : bible_references.map (fun kv => pyLower kv.1) = bible_references.map Prod.fst := by
    decide
  intro text e
  constructor
  · intro h
    have hp : (pyLower text == e) = true := List.find?_some h
    have hmem : e ∈ bible_references.map (fun kv => pyLower kv.1) :=
      List.mem_of_find?_eq_some h
    rw [hk] at hmem
    exact ⟨hmem, eq_of_beq hp⟩
  · rintro ⟨hmem, rfl⟩
    rw [← hk] at hmem
    cases hfind : emotion_lookup text with
    | none =>
      exact absurd (beq_self_eq_true (pyLower text))
        (by simpa using List.find?_eq_none.mp hfind (pyLower text) hmem)
    | some x =>
      have := eq_of_beq (List.find?_some hfind)
      rw [this]

/-- C1 counterexample: `"I feel sad"` contains the catalog keyword `"sad"`
as a substring (after lowercasing), yet the lookup returns `none` and the
handler re-prompts; a padded `" sad "` also fails, so no trimming occurs. -/
theorem emotion_lookup_substring_counterexample :
    containsSub "sad".data (pyLower "I feel sad".data) = true ∧
    "sad".data ∈ bible_references.map Prod.fst ∧
    emotion_lookup "I feel sad".data = none ∧
    emotion_lookup " sad ".data = none ∧
    (handle_emotion_choice false 0 (fun _ => none) "I feel sad".data).2
      = Stage.waiting_for_emotion := by
  decide

/-- C2 (amended): absent an I/O exception, lock acquisition always returns
`True` and ends with the caller's own pid in the lock file; when the file
recorded a digit string naming a distinct alive process, that process is
sent SIGTERM and its record is replaced rather than respected. -/
theorem enforce_single_instance_takes_over : ∀ (st : ProcState) (current : Nat),
    (enforce_single_instance false st current).1 = true ∧
    (enforce_single_instance false st current).2.lock = some (Nat.repr current).data ∧
    ∀ contents, st.lock = some contents →
      pyIsdigit (pyStrip contents) = true →
      parseDigits (pyStrip contents) ≠ current →
      parseDigits (pyStrip contents) ∈ st.alive →
      parseDigits (pyStrip contents) ∈ (enforce_single_instance false st current).2.killed := by
  intro st current
  refine ⟨?_, ?_, ?_⟩
  · cases h : st.lock <;> simp [enforce_single_instance, h]
  · cases h : st.lock <;> simp [enforce_single_instance, h]
  · intro contents hlock hdig hne hal
    simp [enforce_single_instance, hlock, hdig, hne, hal]

/-- C2 witness for the amended claim at a concrete world: lock held by alive
pid 314, caller pid 9. -/
theorem enforce_single_instance_takes_over_witness :
    (enforce_single_instance false ⟨some "314".data, [314], []⟩ 9).1 = true ∧
    314 ∈ (enforce_single_instance false ⟨some "314".data, [314], []⟩ 9).2.killed :=
  ⟨(enforce_single_instance_takes_over ⟨some "314".data, [314], []⟩ 9).1,
   (enforce_single_instance_takes_over ⟨some "314".data, [314], []⟩ 9).2.2
     "314".data rfl (by decide) (by decide) (by decide)⟩

/-- C2 counterexample: with the lock file recording alive pid 100 and caller
pid 200, acquisition returns `true` (the claim says `false`), pid 100 is
SIGTERMed, and the lock record becomes `"200"` (the claim says the holder's
record survives). -/
theorem enforce_single_instance_counterexample :
    (enforce_single_instance false ⟨some "100".data, [100], []⟩ 200).1 = true ∧
    (enforce_single_instance false ⟨some "100".data, [100], []⟩ 200).2.lock
      = some "200".data ∧
    (enforce_single_instance false ⟨some "100".data, [100], []⟩ 200).2.lock
      ≠ some "100".data ∧
    (enforce_single_instance false ⟨some "100".data, [100], []⟩ 200).2.killed = [100] := by
  decide

/-- C3 (amended): `fetch_bible_verse` performs exactly one HTTP request for
every upstream behaviour — transient or not — and returns `none` whenever
that single attempt fails; no retry and no backoff exist (the imported
`tenacity` helpers are never applied). -/
theorem fetch_bible_verse_single_attempt : ∀ upstream : Nat → UpstreamOutcome,
    (fetch_bible_verse_run upstream).2 = 1 ∧
    (failed_outcome (upstream 0) = true → (fetch_bible_verse_run upstream).1 = none) := by
  intro upstream
  refine ⟨rfl, ?_⟩
  intro hfail
  cases h : upstream 0 with
  | transportError => simp [fetch_bible_verse_run, fetch_bible_verse, h]
  | malformedBody code => simp [fetch_bible_verse_run, fetch_bible_verse, h]
  | response code passages =>
    rw [h] at hfail
    simp only [failed_outcome, Bool.or_eq_true, decide_eq_true_eq] at hfail
    rcases hfail with herr | hmiss
    · simp [fetch_bible_verse_run, fetch_bible_verse, h, herr]
    · cases passages with
      | none => simp [fetch_bible_verse_run, fetch_bible_verse, h]
      | some html => simp at hmiss

/-- C3 witness: an upstream answering HTTP 500 forever gets one attempt and
`none`. -/
theorem fetch_bible_verse_single_attempt_witness :
    (fetch_bible_verse_run (fun _ => .response 500 none)).2 = 1 ∧
    (fetch_bible_verse_run (fun _ => .response 500 none)).1 = none :=
  ⟨(fetch_bible_verse_single_attempt (fun _ => .response 500 none)).1,
   (fetch_bible_verse_single_attempt (fun _ => .response 500 none)).2 (by decide)⟩

/-- C3 counterexample: against an upstream returning HTTP 500 on every
request, the fetch performs 1 attempt, not the 3 the claim requires. -/
theorem fetch_bible_verse_no_retry_counterexample :
    (fetch_bible_verse_run (fun _ => .response 500 none)).2 = 1 ∧ (1 : Nat) ≠ 3 ∧
    (fetch_bible_verse_run (fun _ => .response 500 none)).1 = none := by
  decide

/-- C4 (amended): in `WAITING_FOR_EMOTION`, every message that matches no
branch — not the verse/talk menu options and not a catalog keyword — gets
the same re-prompt and leaves the stage at `WAITING_FOR_EMOTION`, on the
first failure and on every later one alike: the handler keeps no failure
counter, so no second-failure transition to a terminal stage exists. -/
theorem handle_emotion_choice_lookup_fail_reprompts :
    ∀ (choice : Nat) (f : List Char → Option (List Char)) (text : List Char),
    containsSub "verse".data (pyLower text) = false →
    containsSub "3874".data (pyLower text) = false →
    containsSub "talk".data (pyLower text) = false →
    emotion_lookup text = none →
    handle_emotion_choice false choice f text = ([msg_reprompt], Stage.waiting_for_emotion) := by
  intro choice f text h1 h2 h3 h4
  simp [handle_emotion_choice, h1, h2, h3, h4]

/-- C4 witness: the unmatched message `"purple elephants"` re-prompts and
stays in `WAITING_FOR_EMOTION`. -/
theorem handle_emotion_choice_lookup_fail_reprompts_witness :
    handle_emotion_choice false 0 (fun _ => none) "purple elephants".data
      = ([msg_reprompt], Stage.waiting_for_emotion) :=
  handle_emotion_choice_lookup_fail_reprompts 0 (fun _ => none) "purple elephants".data
    (by decide) (by decide) (by decide) (by decide)

/-- C4 counterexample: two consecutive unmatched messages each produce the
re-prompt and `WAITING_FOR_EMOTION`; the second failure does not emit a
restart message or reach a terminal stage (the handler is stateless across
turns, so the second turn is the same function application). -/
theorem handle_emotion_choice_second_failure_counterexample :
    handle_emotion_choice false 0 (fun _ => none) "purple elephants".data
      = ([msg_reprompt], Stage.waiting_for_emotion) ∧
    handle_emotion_choice false 0 (fun _ => none) "still purple elephants".data
      = ([msg_reprompt], Stage.waiting_for_emotion) ∧
    Stage.waiting_for_emotion ≠ Stage.ended := by
  decide

/-- C5 (amended): `fetch_bible_verse` is a total function into `Option` — no
exception escapes — and returns `none` exactly on transport errors/timeouts,
malformed bodies, statuses in `[400, 600)` (the range `raise_for_status`
rejects), and bodies with no passage; a status outside `[400, 600)` with a
well-formed passage is treated as success even when it is not 2xx. -/
theorem fetch_bible_verse_absence :
    fetch_bible_verse .transportError = none ∧
    (∀ code, fetch_bible_verse (.malformedBody code) = none) ∧
    ∀ (code : Nat) (p : Option (List Char)),
      fetch_bible_verse (.response code p) = none ↔ (400 ≤ code ∧ code < 600) ∨ p = none := by
  refine ⟨rfl, fun code => rfl, ?_⟩
  intro code p
  by_cases herr : 400 ≤ code ∧ code < 600
  · simp [fetch_bible_verse, herr]
  · cases p with
    | none => simp [fetch_bible_verse, herr]
    | some html => simp [fetch_bible_verse, herr]

/-- C5 counterexample: a non-2xx status below 400 (an un-redirected 301)
carrying a well-formed passage is returned as success, not as `none`. -/
theorem fetch_bible_verse_non2xx_counterexample :
    fetch_bible_verse (.response 301 (some "hello".data)) = some "hello".data ∧
    ¬ (200 ≤ 301 ∧ 301 ≤ 299) := by
  decide

/-- C6: whenever the fetch yields nothing, `get_bible_verse` returns the one
fixed fallback passage and explanation, for every emotion argument and every
random reference choice; being a pure function, repeated calls agree. -/
theorem get_bible_verse_fallback_stable : ∀ (e : List Char) (c : Nat),
    get_bible_verse e c (fun _ => none) = fallback_pair := by
  intro e c
  unfold get_bible_verse
  cases bible_references.find? (fun kv => kv.1 == e) <;> rfl

/-- C7 (amended): an exception while producing the `WAITING_FOR_EMOTION`
response is caught inside the handler, which sends one generic apology and
returns `ConversationHandler.END` — the conversation ends, so the user must
issue `/start` again rather than merely resend the message. -/
theorem handle_emotion_choice_exception_ends :
    ∀ (choice : Nat) (f : List Char → Option (List Char)) (text : List Char),
    handle_emotion_choice true choice f text = ([msg_choice_error], Stage.ended) := by
  intro choice f text
  rfl

/-- C7 counterexample: a turn from `WAITING_FOR_EMOTION` that raises ends at
`ConversationHandler.END`, not at the unchanged `WAITING_FOR_EMOTION` the
claim requires. -/
theorem handle_emotion_choice_exception_counterexample :
    (handle_emotion_choice true 0 (fun _ => none) "sad".data).2 = Stage.ended ∧
    Stage.ended ≠ Stage.waiting_for_emotion := by
  decide

/-- C8: on a successful upstream response carrying a passage payload,
`fetch_bible_verse` returns the payload with every markup tag (any match of
`<[^>]+>`) removed and all whitespace runs collapsed to single spaces; in
particular the payload `<span class="foo">text</span>` yields exactly
`"text"`. -/
theorem fetch_clean_text_properties :
    (∀ l, hasTag (stripTags l) = false) ∧
    (∀ l, hasAdjSpace (clean_verse_text l) = false) ∧
    (∀ l, (clean_verse_text l).all (fun c => !pyIsSpace c || c == ' ') = true) ∧
    (∀ l, fetch_bible_verse (.response 200 (some l)) = some (clean_verse_text l)) ∧
    fetch_bible_verse (.response 200 (some "<span class=\"foo\">text</span>".data))
      = some "text".data := by
  refine ⟨?_, ?_, ?_, ?_, by decide⟩
  · intro l
    exact hasTag_stripAux l none (fun buf h => nomatch h)
  · intro l
    exact hasAdjSpace_joinSp (wordsOf (stripTags l))
      (wordsAux_words (stripTags l) [] (by simp))
  · intro l
    rw [List.all_eq_true]
    intro c hc
    rcases mem_joinSp _ c hc with rfl | ⟨w, hw, hcw⟩
    · simp
    · have := (wordsAux_words (stripTags l) [] (by simp) w hw).2 c hcw
      simp [this]
  · intro l
    simp [fetch_bible_verse]

/-- C9: `cleanup_lock` removes the lock file exactly when its stripped
contents equal `str(pid)` and `os.remove` does not fail; on a pid mismatch
the file is untouched, and a removal failure is absorbed (the function still
returns, with the file left in place). -/
theorem cleanup_lock_frame : ∀ (rf : Bool) (contents : List Char) (pid : Nat),
    (pyStrip contents ≠ (Nat.repr pid).data → cleanup_lock rf (some contents) pid = some contents) ∧
    (pyStrip contents = (Nat.repr pid).data → cleanup_lock false (some contents) pid = none) ∧
    (cleanup_lock true (some contents) pid = some contents) ∧
    (cleanup_lock rf (some contents) pid = none →
      pyStrip contents = (Nat.repr pid).data ∧ rf = false) := by
  intro rf contents pid
  by_cases h : pyStrip contents = (Nat.repr pid).data
  · refine ⟨fun hne => absurd h hne, fun _ => by simp [cleanup_lock, h], by simp [cleanup_lock, h], ?_⟩
    intro hrem
    refine ⟨h, ?_⟩
    cases rf with
    | false => rfl
    | true => simp [cleanup_lock, h] at hrem
  · refine ⟨fun _ => by simp [cleanup_lock, h], fun he => absurd he h, by simp [cleanup_lock, h], ?_⟩
    intro hrem
    simp [cleanup_lock, h] at hrem

/-- C9 witness: pid 42 removes its own record `" 42 "` (stripped match) and
leaves the foreign record `"99"` untouched. -/
theorem cleanup_lock_frame_witness :
    cleanup_lock false (some " 42 ".data) 42 = none ∧
    cleanup_lock false (some "99".data) 42 = some "99".data :=
  ⟨(cleanup_lock_frame false " 42 ".data 42).2.1 (by decide),
   (cleanup_lock_frame false "99".data 42).1 (by decide)⟩

/-- C10: `get_bible_verse` is total — it always returns a `(verse,
explanation)` pair — and on any emotion string that is not a catalog key it
returns the same fixed fallback pair used on fetch failure, for every random
choice and every fetch behaviour. -/
theorem get_bible_verse_total_fallback :
    ∀ (e : List Char) (c : Nat) (f : List Char → Option (List Char)),
    e ∉ bible_references.map Prod.fst → get_bible_verse e c f = fallback_pair := by
  intro e c f he
  have hfind : bible_references.find? (fun kv => kv.1 == e) = none := by
    rw [List.find?_eq_none]
    intro kv hkv hp
    exact he (eq_of_beq hp ▸ List.mem_map_of_mem Prod.fst hkv)
  simp [get_bible_verse, hfind]

/-- C10 witness: the unknown emotion `"happy"` yields the fallback pair even
with a fetch that would succeed. -/
theorem get_bible_verse_total_fallback_witness :
    get_bible_verse "happy".data 3 (fun _ => some "x".data) = fallback_pair :=
  get_bible_verse_total_fallback "happy".data 3 (fun _ => some "x".data) (by decide)

